import Mathlib

/-!
Shallow embedding of the pants engine core (`src/rust/engine/src/nodes.rs`) and of the
command-line argument reader (`src/rust/engine/options/src/args.rs`,
`src/rust/engine/options/src/scope.rs`), together with theorems settling the
specification claims about them.

Conventions of the embedding:
- Rust machine integers that only count list lengths or sizes become `Nat`.
- Opaque host-language handles (`Value`, fingerprints, node results) become `Nat`.
- Fallible Rust code returning `Result<T, E>` becomes `Except E T`.
- A Rust `panic!` / `expect` is kept distinct from a `Failure::Throw` via the
  `PanicOr` type, since the spec distinguishes the two.
- Rust strings are Lean strings; byte-level operations are modelled on characters,
  which agrees with the byte view on the ASCII inputs exercised here.
-/

namespace PantsEngine

/-! ### Core data model -/

/-- Opaque identifier for a host-language type (`TypeId` in `core.rs`). -/
abbrev TypeId := Nat

/-- A `Value` paired with its `TypeId` (`Key` in `core.rs`); the host value handle is
modelled by an opaque `Nat`. -/
structure Key where
  typeId : TypeId
  value : Nat
deriving DecidableEq, Repr

/-- Modelled from the spec: `Params` is an ordered-by-`TypeId` set of `Key`s with at
most one key per `TypeId` (`core.rs` is not part of the given sources). The ordering
invariant is stated separately as `ParamsWF`. -/
abbrev Params := List Key

/-- Modelled from the spec: `Params::retain(pred)` drops keys not satisfying `pred`,
preserving the order of the remainder. -/
def Params.retain (p : Params) (pred : Key → Bool) : Params :=
  p.filter pred

/-- Modelled from the spec: `Params::put(key)` replaces any existing key of the same
`TypeId`, keeping the list ordered by `TypeId`. -/
def Params.put : Params → Key → Params
  | [], k => [k]
  | k2 :: rest, k =>
    if k.typeId = k2.typeId then k :: rest
    else if k.typeId < k2.typeId then k :: k2 :: rest
    else k2 :: Params.put rest k

/-- Modelled from the spec: `Params::find(type)` returns the key of the given type,
if present. -/
def Params.find (p : Params) (t : TypeId) : Option Key :=
  p.find? (fun k => k.typeId == t)

/-- The `Params` ordering invariant: strictly increasing `TypeId`s (hence at most one
key per type). -/
def ParamsWF (p : Params) : Prop :=
  p.Pairwise (fun a b => a.typeId < b.typeId)

/-- A rule-graph entry with pre-resolved dependency edges
(`rule_graph::EntryWithDeps`): either an `Inner` rule entry or a `Root`. Only its
declared parameter-type set `params()` is consumed by `nodes.rs`, so each variant
carries that set (the `rule_graph` crate is not part of the given sources). -/
inductive EntryWithDeps where
  | inner (paramTypes : List TypeId)
  | root (paramTypes : List TypeId)
deriving DecidableEq, Repr

/-- `EntryWithDeps::params()`: the declared parameter-type set of the entry. -/
def EntryWithDeps.params : EntryWithDeps → List TypeId
  | .inner ps => ps
  | .root ps => ps

/-- A node of the precomputed rule graph (`rule_graph::Entry`). -/
inductive Entry where
  | param (t : TypeId)
  | withDeps (e : EntryWithDeps)
deriving DecidableEq, Repr

/-- The predicate that `Select::new` retains params with (`nodes.rs` lines 109-112):
for `Entry::Param(type_id)` the key type must equal `type_id`; for
`Entry::WithDeps(with_deps)` it must be contained in `with_deps.params()`. -/
def entryAccepts (entry : Entry) (k : Key) : Bool :=
  match entry with
  | .param typeId => typeId == k.typeId
  | .withDeps withDeps => withDeps.params.contains k.typeId

/-- A Node that selects a product for some Params (`Select` in `nodes.rs`). -/
structure Select where
  params : Params
  product : TypeId
  entry : Entry
deriving DecidableEq, Repr

/-- `Select::new(params, product, entry)` (`nodes.rs` lines 108-118): narrows `params`
by retaining exactly the keys acceptable to `entry`. -/
def Select.new (params : Params) (product : TypeId) (entry : Entry) : Select :=
  { params := Params.retain params (entryAccepts entry)
    product := product
    entry := entry }

/-- A dependency request key of the rule graph (`selectors::DependencyKey`). -/
inductive DependencyKey where
  | justSelect (product : TypeId)
  | justGet (product : TypeId) (subject : TypeId)
deriving DecidableEq, Repr

/-- Modelled from the spec: the consumed rule-graph edge set
(`rule_graph::RuleEdges`), a map from `DependencyKey` to successor `Entry`. -/
abbrev RuleEdges := List (DependencyKey × Entry)

/-- Modelled from the spec: `RuleEdges::entry_for(dep_key) -> Option<Entry>`. -/
def entry_for (edges : RuleEdges) (dk : DependencyKey) : Option Entry :=
  (edges.find? (fun pr => pr.1 == dk)).map Prod.snd

/-- Outcome of Rust code that may `panic!` instead of returning: a panic aborts the
process and is distinct from any returned value (in particular from a
`Failure::Throw`). -/
inductive PanicOr (α : Type) where
  | panicked (msg : String)
  | ok (a : α)
deriving DecidableEq, Repr

/-- The message of the `panic!` in `Select::new_from_edges` (`nodes.rs` line 129);
the Debug rendering of the edge set is abbreviated away. -/
def newFromEdgesPanicMsg (product : TypeId) : String :=
  "did not declare a dependency on " ++ toString product

/-- `Select::new_from_edges(params, product, edges)` (`nodes.rs` lines 120-132):
looks up `JustSelect(product)` in `edges` and panics (does not `Throw`) when the
edge is missing. -/
def Select.new_from_edges (params : Params) (product : TypeId) (edges : RuleEdges) :
    PanicOr Select :=
  match entry_for edges (.justSelect product) with
  | some entry => .ok (Select.new params product entry)
  | none => .panicked (newFromEdgesPanicMsg product)

/-- The edge lookup at the top of `Task::run` (`nodes.rs` lines 892-896):
`edges_for_inner(entry).expect("edges for task exist.")`, a panic when absent. -/
def taskRunEdges (edgesOpt : Option RuleEdges) : PanicOr RuleEdges :=
  match edgesOpt with
  | some e => .ok e
  | none => .panicked "edges for task exist."

/-- A `Get` issued by a generator body (`externs::Get`): requested product type,
subject key, and the optionally declared subject type. -/
structure Get where
  product : TypeId
  subject : Key
  declaredSubject : Option TypeId
deriving DecidableEq, Repr

/-- The sub-`Select` that `Task::gen_get` (`nodes.rs` lines 783-840) constructs and
runs for one `Get`: the dependency key is `JustGet(get.product, get.subject type)`;
on a successful edge lookup the subject is `put` into the params (replacing any
existing key of the same type) and `Select::new(params, get.product, entry)` is
built. The failure branch (which produces a `Throw`) constructs no `Select` and is
modelled as `none`. -/
def Task.gen_get_select (params : Params) (edges : RuleEdges) (g : Get) :
    Option Select :=
  match entry_for edges (.justGet g.product g.subject.typeId) with
  | some entry => some (Select.new (Params.put params g.subject) g.product entry)
  | none => none

/-! ### DownloadedFile: digests, size limiting, download, snapshot -/

/-- A content address in the store (`hashing::Digest`): fingerprint (modelled as an
opaque `Nat`) and byte size. -/
structure Digest where
  fingerprint : Nat
  size : Nat
deriving DecidableEq, Repr

/-- The kind of a `std::io::Error`; only `InvalidData` is distinguished here. -/
inductive IoErrorKind where
  | invalidData
  | other
deriving DecidableEq, Repr

/-- A `std::io::Error`: kind plus message. -/
structure IoError where
  kind : IoErrorKind
  msg : String
deriving DecidableEq, Repr

/-- The streaming sink of `DownloadedFile::download` (`nodes.rs` lines 679-703):
an accumulating byte writer (`BytesMut`, modelled as the list of bytes written so
far) plus the written count and the size cap. -/
structure SizeLimiter where
  buffer : List Nat
  written : Nat
  size_limit : Nat
deriving DecidableEq, Repr

/-- `SizeLimiter::write` (`nodes.rs` lines 686-698): a chunk that would push the
written count past the cap fails immediately with an `InvalidData` error and
nothing is written; otherwise the chunk is appended, the written count grows by
the chunk length, and the chunk length is returned. -/
def SizeLimiter.write (s : SizeLimiter) (buf : List Nat) :
    Except IoError (SizeLimiter × Nat) :=
  let new_size := s.written + buf.length
  if new_size > s.size_limit then
    .error { kind := .invalidData
             msg := "Downloaded file was larger than expected digest" }
  else
    .ok ({ buffer := s.buffer ++ buf, written := new_size
           size_limit := s.size_limit }, buf.length)

/-- The sink `DownloadedFile::download` streams into (`nodes.rs` lines 706-710):
empty writer, zero written, cap equal to the size of the expected digest. -/
def initSizeLimiter (expected : Digest) : SizeLimiter :=
  { buffer := [], written := 0, size_limit := expected.size }

/-- An HTTP response as consumed by `DownloadedFile::download`: a status code plus
the chunked body stream, each chunk either bytes or a stream error. -/
structure HttpResponse where
  status : Nat
  chunks : List (Except String (List Nat))

/-- The chunk loop of `DownloadedFile::download` (`nodes.rs` lines 712-719): each
chunk error aborts with "Error reading URL fetch response"; each chunk is written
through the hashing sink, whose io errors abort with "Error hashing/capturing URL
fetch response". -/
def streamBody : SizeLimiter → List (Except String (List Nat)) →
    Except String SizeLimiter
  | st, [] => .ok st
  | st, c :: rest =>
    match c with
    | .error e => .error ("Error reading URL fetch response: " ++ e)
    | .ok chunk =>
      match SizeLimiter.write st chunk with
      | .error io => .error ("Error hashing/capturing URL fetch response: " ++ io.msg)
      | .ok (st2, _) => streamBody st2 rest

/-- Debug rendering of a digest as used in the wrong-digest message; the hex
rendering of the fingerprint is abbreviated by its numeric form. -/
def digestRepr (d : Digest) : String :=
  "Digest(Fingerprint<" ++ toString d.fingerprint ++ ">, " ++ toString d.size ++ ")"

/-- The digest-mismatch message of `DownloadedFile::download` (`nodes.rs` lines
726-731). -/
def wrongDigestMsg (want got : Digest) : String :=
  "Wrong digest for downloaded file: want " ++ digestRepr want ++ " got "
    ++ digestRepr got

/-- `DownloadedFile::download(core, url, file_name, expected_digest)` (`nodes.rs`
lines 645-742). Inputs: the digest function of the hashing writer (modelled from
the spec, the `hashing` crate not being part of the given sources), the response
of the HTTP client (or its transport error), the file name and url used in
messages, and the expected digest. The `Ok` payload is the byte buffer passed to
`store.store_file_bytes`, the single store write of the function; an `Err` result
performs no store write. Statuses 500-599 are server errors and 400-499 client
errors, as in the source. -/
def DownloadedFile.download (hash : List Nat → Nat)
    (resp : Except String HttpResponse) (file_name url : String)
    (expected : Digest) : Except String (List Nat) :=
  match resp with
  | .error e => .error ("Error downloading file: " ++ e)
  | .ok r =>
    if 500 ≤ r.status ∧ r.status ≤ 599 then
      .error ("Server error (" ++ toString r.status ++ ") downloading file "
        ++ file_name ++ " from " ++ url)
    else if 400 ≤ r.status ∧ r.status ≤ 499 then
      .error ("Client error (" ++ toString r.status ++ ") downloading file "
        ++ file_name ++ " from " ++ url)
    else
      match streamBody (initSizeLimiter expected) r.chunks with
      | .error e => .error e
      | .ok st =>
        if expected ≠ { fingerprint := hash st.buffer, size := st.buffer.length } then
          .error (wrongDigestMsg expected
            { fingerprint := hash st.buffer, size := st.buffer.length })
        else
          .ok st.buffer

/-- A parsed URL as consumed by `DownloadedFile::load_or_download`: its rendering
(used in messages) and its `path_segments()`, when the URL has a path. -/
structure Url where
  raw : String
  pathSegments : Option (List String)

/-- The one-file snapshot returned by the store: path of the single entry, its
digest, and its executable bit. -/
structure OneFileSnapshot where
  path : String
  digest : Digest
  executable : Bool
deriving DecidableEq, Repr

/-- Modelled from the spec: the store interface
`snapshot_of_one_file(path, digest, executable)` (the `store` crate is not part of
the given sources); the third argument is the executable bit of the single
entry. -/
def snapshot_of_one_file (path : String) (digest : Digest) (executable : Bool) :
    OneFileSnapshot :=
  { path := path, digest := digest, executable := executable }

/-- `DownloadedFile::load_or_download(core, url, digest)` (`nodes.rs` lines
616-643). The file name is the last of `url.path_segments()`, missing segments are
an error; `storeLoad` is the result of `store.load_file_bytes_with(digest, ...)`
(whether bytes are already present); when absent, `download` runs; finally
`snapshot_of_one_file(file_name, digest, true)` is returned — the executable
argument in the source is the literal `true`. -/
def DownloadedFile.load_or_download (storeLoad : Except String Bool)
    (hash : List Nat → Nat) (resp : Except String HttpResponse) (url : Url)
    (digest : Digest) : Except String OneFileSnapshot :=
  match url.pathSegments.bind List.getLast? with
  | none => .error ("Error getting the file name from the parsed URL: " ++ url.raw)
  | some file_name =>
    match storeLoad with
    | .error e => .error e
    | .ok has =>
      if has then .ok (snapshot_of_one_file file_name digest true)
      else
        match DownloadedFile.download hash resp file_name url.raw digest with
        | .error e => .error e
        | .ok _ => .ok (snapshot_of_one_file file_name digest true)

/-! ### Failure taxonomy, cycle reporting, tracer -/

/-- The engine failure taxonomy (`Failure` in `core.rs`): a `Throw` carries a host
exception value plus traceback, modelled by its message. -/
inductive Failure where
  | throw (msg : String)
  | invalidated
deriving DecidableEq, Repr

/-- The tail of `DownloadedFile::run` (`nodes.rs` lines 760-764): any error string
of `load_or_download` is converted to a `Failure::Throw` via `throw`. -/
def DownloadedFile.runModel (storeLoad : Except String Bool)
    (hash : List Nat → Nat) (resp : Except String HttpResponse) (url : Url)
    (digest : Digest) : Except Failure OneFileSnapshot :=
  (DownloadedFile.load_or_download storeLoad hash resp url digest).mapError
    Failure.throw

/-- Helper for `Failure::cyclic`: append " <-" to the last element of a list,
mirroring `path[path_len - 1] += " <-"`. -/
def suffixLast : List String → List String
  | [] => []
  | [y] => [y ++ " <-"]
  | y :: z :: rest => y :: suffixLast (z :: rest)

/-- `Failure::cyclic(path)` (`nodes.rs` lines 1186-1196): when the path has more
than one entry, the first and last entries get a " <-" suffix; the entries are then
joined with an indented newline behind a fixed header. -/
def Failure.cyclic (path : List String) : Failure :=
  let decorated :=
    if path.length > 1 then
      match path with
      | [] => []
      | x :: rest => (x ++ " <-") :: suffixLast rest
    else path
  .throw ("Dep graph contained a cycle:\n  " ++ String.intercalate "\n  " decorated)

/-- Opaque stand-in for `NodeResult` payloads inspected by the tracer. -/
abbrev NodeResultM := Nat

/-- `Tracer::is_bottom` (`nodes.rs` lines 969-981): a node state is a leaf of the
trace (not useful to expand) for `Ok` and `None`; `Throw` and `Invalidated` are
expandable. -/
def Tracer.is_bottom : Option (Except Failure NodeResultM) → Bool
  | some (.error .invalidated) => false
  | some (.error (.throw _)) => false
  | some (.ok _) => true
  | none => true

end PantsEngine

namespace PantsOptions

/-- The scope of command-line flags (`Scope` in `scope.rs`). -/
inductive Scope where
  | global
  | scope (name : String)
deriving DecidableEq, BEq, Repr

/-- `Scope::name` (`scope.rs` lines 33-38). -/
def Scope.name : Scope → String
  | .global => "GLOBAL"
  | .scope s => s

/-- Kernel-evaluable model of Rust `str::starts_with`. -/
def strStartsWith (s pre : String) : Bool :=
  pre.toList.isPrefixOf s.toList

/-- Kernel-evaluable prefix of the first `n` characters of a string. -/
def strTake (s : String) (n : Nat) : String :=
  String.mk (s.toList.take n)

/-- Kernel-evaluable removal of the first `n` characters of a string. -/
def strDrop (s : String) (n : Nat) : String :=
  String.mk (s.toList.drop n)

/-- Character class `[a-z0-9_]` of the scope-name regex in `scope.rs` line 16. -/
def isScopeChar (c : Char) : Bool :=
  (97 ≤ c.toNat && c.toNat ≤ 122) || (48 ≤ c.toNat && c.toNat ≤ 57) || c == '_'

/-- Scan for the scope-name regex `^(?:[a-z0-9_])+(?:-(?:[a-z0-9_])+)*$` of
`scope.rs`: dash-separated non-empty groups of scope characters. The flag records
whether the current group already contains at least one character. -/
def scopeScan : Bool → List Char → Bool
  | seen, [] => seen
  | seen, c :: rest =>
    if c = '-' then seen && scopeScan false rest
    else isScopeChar c && scopeScan true rest

/-- The scope-name regex of `scope.rs` applied to a whole string. -/
def scopeNameMatches (s : String) : Bool :=
  scopeScan false s.toList

/-- `is_valid_scope_name` (`scope.rs` lines 19-23): matches the regex and is not the
literal "pants". -/
def is_valid_scope_name (name : String) : Bool :=
  scopeNameMatches name && name ≠ "pants"

/-- A structured arg parsed from an arg string (`Arg` in `args.rs`). -/
structure Arg where
  context : Scope
  flag : String
  value : Option String
deriving DecidableEq, BEq, Repr

/-- Break a character list at the first '=': the part before it and, when an '=' is
present, everything after it. -/
def breakAtEq : List Char → List Char × Option (List Char)
  | [] => ([], none)
  | c :: rest =>
    if c = '=' then ([], some rest)
    else
      let r := breakAtEq rest
      (c :: r.1, r.2)

/-- `splitn(2, '=')` of a token: the part before the first '=' and, if an '=' is
present, everything after it. -/
def splitFirstEq (t : String) : String × Option String :=
  let r := breakAtEq t.toList
  (String.mk r.1, r.2.map String.mk)

/-- The parsing loop of `Args::new` (`args.rs` lines 105-153), as a recursion over
the token list threading the current scope. Returns the structured args and the
passthrough args (the tokens after a literal "--"), mirroring the loop body:
"--" starts passthrough; a "--"-prefixed token is a long flag split at the first
'='; a "-"-prefixed token of length at least 2 is a short flag whose first two
characters are the flag, the rest (minus one leading equals sign) the value; a valid
scope name sets the scope; anything else resets the scope to global. -/
def parseArgs (scope : Scope) : List String → List Arg × Option (List String)
  | [] => ([], none)
  | t :: rest =>
    if t == "--" then
      ([], some rest)
    else if strStartsWith t "--" then
      let fv := splitFirstEq t
      let r := parseArgs scope rest
      ({ context := scope, flag := fv.1, value := fv.2 } :: r.1, r.2)
    else if strStartsWith t "-" ∧ 2 ≤ t.length then
      let flag := strTake t 2
      let v0 := strDrop t 2
      let v1 := if strStartsWith v0 "=" then strDrop v0 1 else v0
      let r := parseArgs scope rest
      ({ context := scope, flag := flag
         value := if v1 == "" then none else some v1 } :: r.1, r.2)
    else if is_valid_scope_name t then
      parseArgs (.scope t) rest
    else
      parseArgs .global rest

/-- `Args::new(arg_strs)`: parse all tokens starting in the global scope. -/
def Args.new (tokens : List String) : List Arg × Option (List String) :=
  parseArgs .global tokens

/-! ### Option matching and the `ArgsReader` getters -/

/-- Modelled from the spec: an option identifier (`OptionId` in `id.rs`, not part of
the given sources): its scope, its name components, and an optional short name. -/
structure OptionId where
  scope : Scope
  nameComponents : List String
  shortName : Option String
deriving DecidableEq, Repr

/-- Join strings with dashes: the `intersperse("-")`-and-flatten target that
`Arg::_flag_match` (`args.rs` lines 30-42) compares the flag against. -/
def joinDash : List String → String
  | [] => ""
  | [p] => p
  | p :: q :: rest => p ++ "-" ++ joinDash (q :: rest)

/-- `Arg::_flag_match`: the flag equals the dash-joined parts, character by
character. -/
def flagMatch (flag : String) (parts : List String) : Bool :=
  flag == joinDash parts

/-- The leading part emitted by the negation-aware matching (`args.rs` lines
44-50): "--no" when negated, else "-". -/
def dashOrNo (negate : Bool) : String :=
  if negate then "--no" else "-"

/-- `Arg::_matches_explicit_scope` (`args.rs` lines 53-59): the flag matches
`--scope-name...` (or `--no-scope-name...`). -/
def Arg.matchesExplicitScope (a : Arg) (id : OptionId) (negate : Bool) : Bool :=
  flagMatch a.flag (dashOrNo negate :: id.scope.name :: id.nameComponents)

/-- `Arg::_matches_implicit_scope` (`args.rs` lines 62-65): the current goal scope
equals the id scope and the flag matches `--name...` (or `--no-name...`). -/
def Arg.matchesImplicitScope (a : Arg) (id : OptionId) (negate : Bool) : Bool :=
  a.context == id.scope && flagMatch a.flag (dashOrNo negate :: id.nameComponents)

/-- `Arg::_matches_short` (`args.rs` lines 68-74): the flag matches `-s` for the
short name, independent of negation. -/
def Arg.matchesShort (a : Arg) (id : OptionId) : Bool :=
  match id.shortName with
  | some sn => flagMatch a.flag ["", sn]
  | none => false

/-- `Arg::_matches` (`args.rs` lines 77-81). -/
def Arg.matchesWith (a : Arg) (id : OptionId) (negate : Bool) : Bool :=
  a.matchesExplicitScope id negate || a.matchesImplicitScope id negate
    || a.matchesShort id

/-- `Arg::matches` (`args.rs` lines 83-85). -/
def Arg.matches (a : Arg) (id : OptionId) : Bool :=
  a.matchesWith id false

/-- `Arg::matches_negation` (`args.rs` lines 87-89). -/
def Arg.matches_negation (a : Arg) (id : OptionId) : Bool :=
  a.matchesWith id true

/-- Character-wise ASCII lowercasing of a string. -/
def strToLower (s : String) : String :=
  String.mk (s.toList.map Char.toLower)

/-- `OptionsSource::display` for `ArgsReader` (`args.rs` lines 288-297); the name
join of `id.name("-", ToLower)` is modelled from the spec (`id.rs` is not part of
the given sources). -/
def display (id : OptionId) : String :=
  "--"
    ++ (match id.scope with
        | .global => ""
        | .scope sc => strToLower sc ++ "-")
    ++ joinDash (id.nameComponents.map strToLower)

/-- The missing-value message used by `get_string` and `get_list` (`args.rs` lines
268 and 311). -/
def missingListValueMsg (id : OptionId) : String :=
  "Expected list option " ++ display id ++ " to have a value."

/-- The missing-value message used by `get_dict` (`args.rs` line 356). -/
def missingDictValueMsg (id : OptionId) : String :=
  "Expected dict option " ++ display id ++ " to have a value."

/-- The value a single matching arg contributes to `get_string`: its value expanded
by the fromfile expander (parse errors rendered with the flag), or the
missing-value error. The expander and renderer are parameters: the `fromfile`
subsystem is consumed opaquely. -/
def stringContribution (expand : String → Except String (Option String))
    (renderErr : String → String → String) (id : OptionId) (a : Arg) :
    Except String (Option String) :=
  match a.value with
  | none => .error (missingListValueMsg id)
  | some v => (expand v).mapError (renderErr a.flag)

/-- The reversed-iteration loop of `ArgsReader::get_string` (`args.rs` lines
303-317). -/
def getStringRev (expand : String → Except String (Option String))
    (renderErr : String → String → String) (id : OptionId) :
    List Arg → Except String (Option String)
  | [] => .ok none
  | a :: rest =>
    if a.matches id then stringContribution expand renderErr id a
    else getStringRev expand renderErr id rest

/-- `ArgsReader::get_string(id)`: iterate the args reversed so that the rightmost
matching arg wins. -/
def ArgsReader.get_string (expand : String → Except String (Option String))
    (renderErr : String → String → String) (args : List Arg) (id : OptionId) :
    Except String (Option String) :=
  getStringRev expand renderErr id args.reverse

/-- `ArgsReader::to_bool` (`args.rs` lines 251-261): no value means `true`; a value
is expanded and parsed as a bool (`bool::parse` is the `parseBool` parameter). -/
def to_bool (expand : String → Except String (Option String))
    (parseBool : String → Except String Bool) (a : Arg) :
    Except String (Option Bool) :=
  match a.value with
  | some value =>
    match expand value with
    | .error e => .error e
    | .ok (some s) => (parseBool s).map some
    | .ok none => .ok none
  | none => .ok (some true)

/-- The value a single arg contributes to `get_bool`: `to_bool` when it matches
plainly, the flipped bool (`b ^ true`) when it matches the negation. -/
def boolContribution (expand : String → Except String (Option String))
    (parseBool : String → Except String Bool)
    (renderErr : String → String → String) (id : OptionId) (a : Arg) :
    Except String (Option Bool) :=
  if a.matches id then (to_bool expand parseBool a).mapError (renderErr a.flag)
  else
    ((to_bool expand parseBool a).map
      (Option.map (fun b => Bool.xor b true))).mapError (renderErr a.flag)

/-- The reversed-iteration loop of `ArgsReader::get_bool` (`args.rs` lines
319-333). -/
def getBoolRev (expand : String → Except String (Option String))
    (parseBool : String → Except String Bool)
    (renderErr : String → String → String) (id : OptionId) :
    List Arg → Except String (Option Bool)
  | [] => .ok none
  | a :: rest =>
    if a.matches id then (to_bool expand parseBool a).mapError (renderErr a.flag)
    else if a.matches_negation id then
      ((to_bool expand parseBool a).map
        (Option.map (fun b => Bool.xor b true))).mapError (renderErr a.flag)
    else getBoolRev expand parseBool renderErr id rest

/-- `ArgsReader::get_bool(id)`: iterate the args reversed so that the rightmost
matching (or negation-matching) arg wins. -/
def ArgsReader.get_bool (expand : String → Except String (Option String))
    (parseBool : String → Except String Bool)
    (renderErr : String → String → String) (args : List Arg) (id : OptionId) :
    Except String (Option Bool) :=
  getBoolRev expand parseBool renderErr id args.reverse

/-- The accumulation loop of `ArgsReader::get_list` (`args.rs` lines 263-284),
generic in the edit type `E` (instantiated at `ListEdit<bool/i64/f64/String>` by
the `get_bool_list`/`get_int_list`/`get_float_list`/`get_string_list` variants,
which all delegate to it): matching args in order contribute their expanded edits,
appended left to right. -/
def getListGo {E : Type} (expandVal : String → Except String (Option (List E)))
    (renderErr : String → String → String) (id : OptionId) :
    List Arg → List E → Except String (Option (List E))
  | [], edits => if edits.isEmpty then .ok none else .ok (some edits)
  | a :: rest, edits =>
    if a.matches id then
      match a.value with
      | none => .error (missingListValueMsg id)
      | some v =>
        match (expandVal v).mapError (renderErr a.flag) with
        | .error e => .error e
        | .ok none => getListGo expandVal renderErr id rest edits
        | .ok (some es) => getListGo expandVal renderErr id rest (edits ++ es)
    else getListGo expandVal renderErr id rest edits

/-- `ArgsReader::get_list(id)`. -/
def ArgsReader.get_list {E : Type}
    (expandVal : String → Except String (Option (List E)))
    (renderErr : String → String → String) (args : List Arg) (id : OptionId) :
    Except String (Option (List E)) :=
  getListGo expandVal renderErr id args []

/-- The accumulation loop of `ArgsReader::get_dict` (`args.rs` lines 351-372),
generic in the `DictEdit` type `D`; identical to the list loop except for the
missing-value message. -/
def getDictGo {D : Type} (expandVal : String → Except String (Option (List D)))
    (renderErr : String → String → String) (id : OptionId) :
    List Arg → List D → Except String (Option (List D))
  | [], edits => if edits.isEmpty then .ok none else .ok (some edits)
  | a :: rest, edits =>
    if a.matches id then
      match a.value with
      | none => .error (missingDictValueMsg id)
      | some v =>
        match (expandVal v).mapError (renderErr a.flag) with
        | .error e => .error e
        | .ok none => getDictGo expandVal renderErr id rest edits
        | .ok (some es) => getDictGo expandVal renderErr id rest (edits ++ es)
    else getDictGo expandVal renderErr id rest edits

/-- `ArgsReader::get_dict(id)`. -/
def ArgsReader.get_dict {D : Type}
    (expandVal : String → Except String (Option (List D)))
    (renderErr : String → String → String) (args : List Arg) (id : OptionId) :
    Except String (Option (List D)) :=
  getDictGo expandVal renderErr id args []

/-- The edits one arg contributes when its value expands successfully; empty
otherwise. -/
def argEdits {E : Type} (expandVal : String → Except String (Option (List E)))
    (renderErr : String → String → String) (a : Arg) : List E :=
  match a.value with
  | none => []
  | some v =>
    match (expandVal v).mapError (renderErr a.flag) with
    | .ok (some es) => es
    | _ => []

/-- The edits of all matching args, accumulated in left-to-right argument order. -/
def editsOf {E : Type} (expandVal : String → Except String (Option (List E)))
    (renderErr : String → String → String) (id : OptionId) : List Arg → List E
  | [] => []
  | a :: rest =>
    (if a.matches id then argEdits expandVal renderErr a else [])
      ++ editsOf expandVal renderErr id rest

/-! ### Concrete instances used by witnesses -/

/-- A global option id named "foo" with no short name. -/
def exId : OptionId :=
  { scope := .global, nameComponents := ["foo"], shortName := none }

/-- A global-context "--foo" flag with value "0". -/
def exArgA : Arg := { context := .global, flag := "--foo", value := some "0" }

/-- A global-context "--foo" flag with value "1". -/
def exArgB : Arg := { context := .global, flag := "--foo", value := some "1" }

/-- A global-context "--bar" flag (not matching the "foo" id). -/
def exArgC : Arg := { context := .global, flag := "--bar", value := some "9" }

/-- A global-context valueless "--foo" flag. -/
def exArgT : Arg := { context := .global, flag := "--foo", value := none }

/-- A global-context valueless "--no-foo" flag (negation of "foo"). -/
def exArgN : Arg := { context := .global, flag := "--no-foo", value := none }

end PantsOptions

namespace PantsEngine

/-! ### Helper lemmas about `Params` and `Select` -/

/-- Acceptability of a key to an entry depends only on its `TypeId`. -/
theorem entryAccepts_eq_of_typeId_eq (entry : Entry) (a b : Key)
    (h : a.typeId = b.typeId) : entryAccepts entry a = entryAccepts entry b := by
  cases entry <;> simp [entryAccepts, h]

/-- After `Params::put`, a well-formed params list contains exactly one key of the
inserted type, namely the inserted key. -/
theorem put_filter_typeId (k : Key) :
    ∀ (p : Params), ParamsWF p →
      (Params.put p k).filter (fun x => x.typeId == k.typeId) = [k] := by
  intro p
  induction p with
  | nil =>
    intro _
    simp [Params.put]
  | cons k2 rest ih =>
    intro hwf
    rw [ParamsWF, List.pairwise_cons] at hwf
    obtain ⟨hlt, hrest⟩ := hwf
    rw [Params.put]
    by_cases h1 : k.typeId = k2.typeId
    · rw [if_pos h1]
      have hnil : rest.filter (fun x => x.typeId == k.typeId) = [] := by
        rw [List.filter_eq_nil_iff]
        intro a ha
        have hx : k2.typeId < a.typeId := hlt a ha
        simp only [beq_iff_eq]
        intro he
        rw [he, h1] at hx
        exact Nat.lt_irrefl _ hx
      simp [hnil]
    · have hk2 : (k2.typeId == k.typeId) = false := by
        simp only [beq_eq_false_iff_ne, ne_eq]
        exact fun he => h1 he.symm
      by_cases h2 : k.typeId < k2.typeId
      · rw [if_neg h1, if_pos h2]
        have hnil : rest.filter (fun x => x.typeId == k.typeId) = [] := by
          rw [List.filter_eq_nil_iff]
          intro a ha
          have hx : k2.typeId < a.typeId := hlt a ha
          simp only [beq_iff_eq]
          intro he
          rw [he] at hx
          exact absurd hx (Nat.lt_asymm h2)
        simp [hk2, hnil]
      · rw [if_neg h1, if_neg h2]
        rw [List.filter_cons_of_neg (by simp [hk2])]
        exact ih hrest

/-- The params of `Select::new(params.put(k), product, entry)` contain exactly the
key `k` at its type whenever the entry accepts that type. -/
theorem select_new_put_filter (p : Params) (product : TypeId) (entry : Entry)
    (k : Key) (hwf : ParamsWF p) (hacc : entryAccepts entry k = true) :
    (Select.new (Params.put p k) product entry).params.filter
      (fun x => x.typeId == k.typeId) = [k] := by
  show ((Params.put p k).filter (entryAccepts entry)).filter
      (fun x => x.typeId == k.typeId) = [k]
  rw [List.filter_filter]
  have hpt : ∀ x : Key,
      ((x.typeId == k.typeId) && entryAccepts entry x) = (x.typeId == k.typeId) := by
    intro x
    by_cases h : x.typeId = k.typeId
    · rw [entryAccepts_eq_of_typeId_eq entry x k h, hacc]
      simp [h]
    · simp [h]
  simp only [hpt]
  exact put_filter_typeId k p hwf

/-! ### Claim C1 -/

/-- Claim C1: for every `Select` constructed via `Select::new(params, product,
entry)`, the resulting `params` contains exactly the input keys acceptable to the
entry: keys whose `TypeId` is the target param type when the entry is `Param`, or a
member of the declared parameter set when the entry is a `WithDeps` (`Inner`/`Root`)
entry; every input key meeting that condition is retained. -/
theorem c1_select_new_narrowing (p : Params) (product : TypeId) (entry : Entry)
    (k : Key) :
    k ∈ (Select.new p product entry).params ↔ k ∈ p ∧ entryAccepts entry k = true := by
  simp [Select.new, Params.retain, List.mem_filter]

/-! ### Claim C2 -/

/-- Claim C2 counterexample: a `Get` with subject of type 1 resolved through an
entry `Param(2)` that does not declare type 1. `Task::gen_get` puts the subject
into the params, but `Select::new` then narrows the params to the keys acceptable
to the entry, dropping the subject: the constructed sub-`Select` has empty params,
so it does not contain exactly one key of the subject type. -/
theorem c2_counterexample :
    Task.gen_get_select [] [(DependencyKey.justGet 2 1, Entry.param 2)]
        { product := 2, subject := { typeId := 1, value := 0 }, declaredSubject := none }
      = some { params := [], product := 2, entry := .param 2 } ∧
      (((Select.mk [] 2 (.param 2)).params.filter
        (fun x => x.typeId == (1 : TypeId))).length = 1 → False) :=
  ⟨rfl, by decide⟩

/-- Claim C2 as amended: for a `Get` whose subject has type T, when the caller
params are well formed and the entry looked up for the `Get` accepts T (it is
`Param(T)` or declares T in its parameter set), the sub-`Select` constructed and
run by `Task::gen_get` has params containing exactly one key of type T, equal to
the subject of the `Get` (which replaced any pre-existing key of type T). Without
the acceptance condition the subject is dropped by the narrowing of
`Select::new`. -/
theorem c2_amended_rightmost_substitution (p : Params) (edges : RuleEdges) (g : Get)
    (s : Select) (hwf : ParamsWF p)
    (hs : Task.gen_get_select p edges g = some s)
    (hacc : entryAccepts s.entry g.subject = true) :
    s.params.filter (fun x => x.typeId == g.subject.typeId) = [g.subject] := by
  rw [Task.gen_get_select] at hs
  cases he : entry_for edges (.justGet g.product g.subject.typeId) with
  | none =>
    rw [he] at hs
    exact absurd hs (by simp)
  | some entry =>
    rw [he] at hs
    have hs2 : s = Select.new (Params.put p g.subject) g.product entry := by
      injection hs with h
      exact h.symm
    subst hs2
    exact select_new_put_filter p g.product entry g.subject hwf hacc

/-- Witness for the amended claim C2: caller params hold a key of type 1 with
value 5; the `Get` subject is a key of type 1 with value 9; the resolved entry
declares type 1. The sub-select params contain exactly the subject, which
replaced the pre-existing key. -/
theorem c2_amended_witness :
    ({ params := [{ typeId := 1, value := 9 }], product := 2,
       entry := .withDeps (.inner [1]) } : Select).params.filter
        (fun x => x.typeId == (1 : TypeId)) = [{ typeId := 1, value := 9 }] :=
  c2_amended_rightmost_substitution
    [{ typeId := 1, value := 5 }]
    [(DependencyKey.justGet 2 1, Entry.withDeps (.inner [1]))]
    { product := 2, subject := { typeId := 1, value := 9 }, declaredSubject := none }
    { params := [{ typeId := 1, value := 9 }], product := 2,
      entry := .withDeps (.inner [1]) }
    (by simp [ParamsWF]) (by rfl) (by rfl)

/-! ### Claim C5 -/

/-- Claim C5 counterexample: a `Select::new_from_edges` over an edge set with no
entry for `JustSelect(product)` panics (`panic!` in `nodes.rs` line 129), and the
missing edge set in `Task::run` panics (`expect` in `nodes.rs` line 896); neither
failure is represented as a `Failure::Throw`, contrary to the claim. -/
theorem c5_counterexample :
    Select.new_from_edges [] 0 [] = PanicOr.panicked (newFromEdgesPanicMsg 0) ∧
      taskRunEdges none = PanicOr.panicked "edges for task exist." :=
  ⟨rfl, rfl⟩

/-- Claim C5 as amended: a `Select::new_from_edges` whose edge set has no entry for
`JustSelect(product)`, and a `Task::run` whose entry has no edge set, abort with a
panic (process abort), not with a `Failure::Throw`. -/
theorem c5_amended_missing_edge_panics (params : Params) (product : TypeId)
    (edges : RuleEdges) (h : entry_for edges (.justSelect product) = none) :
    Select.new_from_edges params product edges
        = .panicked (newFromEdgesPanicMsg product) ∧
      taskRunEdges none = .panicked "edges for task exist." := by
  rw [Select.new_from_edges, h]
  exact ⟨rfl, rfl⟩

/-- Witness for the amended claim C5 at the empty edge set. -/
theorem c5_amended_witness :
    Select.new_from_edges [{ typeId := 3, value := 4 }] 7 []
        = .panicked (newFromEdgesPanicMsg 7) ∧
      taskRunEdges none = .panicked "edges for task exist." :=
  c5_amended_missing_edge_panics [{ typeId := 3, value := 4 }] 7 [] rfl

/-! ### Claim C7 -/

/-- `suffixLast` appends " <-" exactly to the final element. -/
theorem suffixLast_append (y : String) :
    ∀ mid : List String, suffixLast (mid ++ [y]) = mid ++ [y ++ " <-"]
  | [] => rfl
  | a :: t => by
    cases t with
    | nil => rfl
    | cons b t2 =>
      show suffixLast (a :: b :: (t2 ++ [y])) = a :: ((b :: t2) ++ [y ++ " <-"])
      rw [suffixLast]
      rw [show b :: (t2 ++ [y]) = (b :: t2) ++ [y] from rfl]
      rw [suffixLast_append y (b :: t2)]

/-- Claim C7 counterexample: a cycle path with a single entry is rendered with no
" <-" marker at all (`Failure::cyclic` only decorates when the path length exceeds
one), so the first and last entry of a 1-entry path are not suffixed as the claim
states for every n. -/
theorem c7_counterexample :
    Failure.cyclic ["A"] = Failure.throw "Dep graph contained a cycle:\n  A" ∧
      "Dep graph contained a cycle:\n  A" ≠ "Dep graph contained a cycle:\n  A <-" ∧
      "Dep graph contained a cycle:\n  A" ≠ "Dep graph contained a cycle:\n  A <- <-" :=
  ⟨rfl, by decide, by decide⟩

/-- Claim C7 as amended: for every cycle path of n entries with n at least 2, the
`Throw` message is "Dep graph contained a cycle:" followed by all n entries joined
by an indented newline, with the first and the last entry suffixed by " <-"; a
path of at most one entry is rendered without markers. -/
theorem c7_amended_cycle_message (x y : String) (mid : List String) :
    Failure.cyclic (x :: mid ++ [y]) =
      Failure.throw ("Dep graph contained a cycle:\n  " ++
        String.intercalate "\n  " ((x ++ " <-") :: (mid ++ [y ++ " <-"]))) := by
  have hlen : (x :: mid ++ [y]).length > 1 := by
    simp
  rw [Failure.cyclic.eq_def, if_pos hlen]
  show Failure.throw ("Dep graph contained a cycle:\n  " ++
      String.intercalate "\n  " ((x ++ " <-") :: suffixLast (mid ++ [y]))) = _
  rw [suffixLast_append]

/-! ### Claim C8 -/

/-- Claim C8 counterexample: a node state of `Throw` is classified by
`Tracer::is_bottom` as expandable (`false`), not as a leaf, contrary to the
claim. -/
theorem c8_counterexample :
    Tracer.is_bottom (some (.error (.throw "boom"))) = false :=
  rfl

/-- Claim C8 as amended: `Tracer::is_bottom` classifies a node state as a leaf (not
useful to expand) exactly when it is `Ok` or `None`; both `Throw` and `Invalidated`
are expandable. -/
theorem c8_amended_is_bottom_iff (r : Option (Except Failure NodeResultM)) :
    Tracer.is_bottom r = true ↔ r = none ∨ ∃ v, r = some (.ok v) := by
  cases r with
  | none => simp [Tracer.is_bottom]
  | some res =>
    cases res with
    | ok v => simp [Tracer.is_bottom]
    | error f => cases f <;> simp [Tracer.is_bottom]

/-! ### Claim C3 -/

/-- Claim C3 counterexample: a successful `DownloadedFile` evaluation returns a
one-file snapshot whose entry path is the last URL path segment but whose
executable bit is set, not clear: `load_or_download` passes the literal `true` as
the executable argument of `snapshot_of_one_file` (`nodes.rs` line 638). -/
theorem c3_counterexample :
    DownloadedFile.load_or_download (.ok true) (fun _ => 0) (.error "unused")
        { raw := "https://host/a/b.txt", pathSegments := some ["a", "b.txt"] }
        { fingerprint := 7, size := 3 }
      = .ok { path := "b.txt", digest := { fingerprint := 7, size := 3 },
              executable := true } ∧
      ({ path := "b.txt", digest := { fingerprint := 7, size := 3 },
         executable := true } : OneFileSnapshot).executable ≠ false :=
  ⟨rfl, by decide⟩

/-- Claim C3 as amended: every successful `DownloadedFile` evaluation returns a
single-file snapshot whose one entry path is the last path segment of the URL,
whose digest is the declared digest, and whose executable bit is set (`true`). -/
theorem c3_amended_snapshot_shape (storeLoad : Except String Bool)
    (hash : List Nat → Nat) (resp : Except String HttpResponse) (url : Url)
    (digest : Digest) (s : OneFileSnapshot)
    (h : DownloadedFile.load_or_download storeLoad hash resp url digest = .ok s) :
    url.pathSegments.bind List.getLast? = some s.path ∧ s.digest = digest ∧
      s.executable = true := by
  rw [DownloadedFile.load_or_download.eq_def] at h
  cases hseg : url.pathSegments.bind List.getLast? with
  | none =>
    rw [hseg] at h
    exact absurd h (by simp)
  | some file_name =>
    rw [hseg] at h
    cases storeLoad with
    | error e => exact absurd h (by simp)
    | ok has =>
      cases has with
      | true =>
        simp only [if_pos] at h
        injection h with h2
        rw [← h2]
        exact ⟨rfl, rfl, rfl⟩
      | false =>
        simp only [Bool.false_eq_true, if_neg] at h
        cases hdl : DownloadedFile.download hash resp file_name url.raw digest with
        | error e =>
          rw [hdl] at h
          exact absurd h (by simp)
        | ok buf =>
          rw [hdl] at h
          injection h with h2
          rw [← h2]
          exact ⟨rfl, rfl, rfl⟩

/-- Witness for the amended claim C3: the file is already in the store; the
returned snapshot entry is the last URL segment with the declared digest and the
executable bit set. -/
theorem c3_amended_witness :
    ({ raw := "https://host/a/b.txt", pathSegments := some ["a", "b.txt"] }
          : Url).pathSegments.bind List.getLast?
        = some ({ path := "b.txt", digest := { fingerprint := 7, size := 3 },
                  executable := true } : OneFileSnapshot).path ∧
      ({ path := "b.txt", digest := { fingerprint := 7, size := 3 },
         executable := true } : OneFileSnapshot).digest
        = { fingerprint := 7, size := 3 } ∧
      ({ path := "b.txt", digest := { fingerprint := 7, size := 3 },
         executable := true } : OneFileSnapshot).executable = true :=
  c3_amended_snapshot_shape (.ok true) (fun _ => 0) (.error "unused")
    { raw := "https://host/a/b.txt", pathSegments := some ["a", "b.txt"] }
    { fingerprint := 7, size := 3 }
    { path := "b.txt", digest := { fingerprint := 7, size := 3 },
      executable := true }
    rfl

/-! ### Claim C4 -/

/-- Claim C4: bytes are handed to `store_file_bytes` only when the digest computed
over the fully streamed body equals the declared digest (so a successful download
stores bytes hashing to the declared digest); when the streamed body hashes to a
different digest, the download fails with exactly the wrong-digest message, and no
store write happens (the `Ok` payload of `DownloadedFile.download` is the only
store write it performs); any such error string surfaces at the node as a
`Failure::Throw` with that message. -/
theorem c4_download_integrity (hash : List Nat → Nat)
    (resp : Except String HttpResponse) (file_name url : String)
    (expected : Digest) :
    (∀ buf, DownloadedFile.download hash resp file_name url expected = .ok buf →
      ({ fingerprint := hash buf, size := buf.length } : Digest) = expected) ∧
    (∀ r st, resp = .ok r →
      ¬(500 ≤ r.status ∧ r.status ≤ 599) → ¬(400 ≤ r.status ∧ r.status ≤ 499) →
      streamBody (initSizeLimiter expected) r.chunks = .ok st →
      ({ fingerprint := hash st.buffer, size := st.buffer.length } : Digest)
          ≠ expected →
      DownloadedFile.download hash resp file_name url expected
        = .error (wrongDigestMsg expected
            { fingerprint := hash st.buffer, size := st.buffer.length })) ∧
    (∀ (storeLoad : Except String Bool) (u2 : Url) (d : Digest) (msg : String),
      DownloadedFile.load_or_download storeLoad hash resp u2 d = .error msg →
      DownloadedFile.runModel storeLoad hash resp u2 d
        = .error (Failure.throw msg)) := by
  refine ⟨?_, ?_, ?_⟩
  · intro buf hok
    cases resp with
    | error e => exact absurd hok (by simp [DownloadedFile.download])
    | ok r =>
      rw [DownloadedFile.download] at hok
      by_cases h5 : 500 ≤ r.status ∧ r.status ≤ 599
      · rw [if_pos h5] at hok
        exact absurd hok (by simp)
      · rw [if_neg h5] at hok
        by_cases h4 : 400 ≤ r.status ∧ r.status ≤ 499
        · rw [if_pos h4] at hok
          exact absurd hok (by simp)
        · rw [if_neg h4] at hok
          split at hok
          · exact absurd hok (by simp)
          · rename_i st hst
            by_cases hne :
                expected ≠ ({ fingerprint := hash st.buffer,
                              size := st.buffer.length } : Digest)
            · rw [if_pos hne] at hok
              exact absurd hok (by simp)
            · rw [if_neg hne] at hok
              push_neg at hne
              injection hok with h2
              rw [← h2]
              exact hne.symm
  · intro r st hr h5 h4 hst hne
    subst hr
    rw [DownloadedFile.download]
    rw [if_neg h5, if_neg h4, hst]
    show (if expected ≠ ({ fingerprint := hash st.buffer, size := st.buffer.length } : Digest) then
        Except.error (wrongDigestMsg expected
          { fingerprint := hash st.buffer, size := st.buffer.length })
      else Except.ok st.buffer) = _
    rw [if_pos (Ne.symm hne)]
  · intro storeLoad u2 d msg hmsg
    rw [DownloadedFile.runModel, hmsg]
    rfl

/-- Witness for claim C4: a 200 response with body [7] and the byte-count digest
function. With declared digest (1, 1) the download succeeds and the stored bytes
hash to the declared digest; with declared digest (99, 99) the streamed body
hashes to (1, 1), so the download fails with the wrong-digest message and the node
surfaces it as a `Throw`. -/
theorem c4_witness :
    ({ fingerprint := ([7] : List Nat).length, size := ([7] : List Nat).length }
          : Digest) = { fingerprint := 1, size := 1 } ∧
      DownloadedFile.download (fun l => l.length)
          (.ok { status := 200, chunks := [.ok [7]] }) "f" "u"
          { fingerprint := 99, size := 99 }
        = .error (wrongDigestMsg { fingerprint := 99, size := 99 }
            { fingerprint := 1, size := 1 }) ∧
      DownloadedFile.runModel (.ok false) (fun l => l.length)
          (.ok { status := 200, chunks := [.ok [7]] })
          { raw := "u", pathSegments := some ["b.txt"] }
          { fingerprint := 99, size := 99 }
        = .error (.throw (wrongDigestMsg { fingerprint := 99, size := 99 }
            { fingerprint := 1, size := 1 })) :=
  ⟨(c4_download_integrity (fun l => l.length)
        (.ok { status := 200, chunks := [.ok [7]] }) "f" "u"
        { fingerprint := 1, size := 1 }).1 [7] rfl,
   (c4_download_integrity (fun l => l.length)
        (.ok { status := 200, chunks := [.ok [7]] }) "f" "u"
        { fingerprint := 99, size := 99 }).2.1
      { status := 200, chunks := [.ok [7]] }
      { buffer := [7], written := 1, size_limit := 99 }
      rfl (by decide) (by decide) rfl (by decide),
   (c4_download_integrity (fun l => l.length)
        (.ok { status := 200, chunks := [.ok [7]] }) "f" "u"
        { fingerprint := 99, size := 99 }).2.2 (.ok false)
      { raw := "u", pathSegments := some ["b.txt"] }
      { fingerprint := 99, size := 99 }
      (wrongDigestMsg { fingerprint := 99, size := 99 }
        { fingerprint := 1, size := 1 })
      rfl⟩

/-! ### Claim C6 -/

/-- Claim C6: the streaming sink of `DownloadedFile::download` is created with a
size cap equal to the size of the declared digest; a `SizeLimiter::write` whose
chunk would push the written count past the cap fails immediately with an
`InvalidData` error reading "Downloaded file was larger than expected digest"
without writing the chunk, and a write within the cap succeeds, appends the chunk,
and grows the written count by the chunk length. -/
theorem c6_size_limiter (expected : Digest) (s : SizeLimiter) (buf : List Nat) :
    (initSizeLimiter expected).size_limit = expected.size ∧
      (s.written + buf.length > s.size_limit →
        SizeLimiter.write s buf =
          .error { kind := .invalidData
                   msg := "Downloaded file was larger than expected digest" }) ∧
      (s.written + buf.length ≤ s.size_limit →
        SizeLimiter.write s buf =
          .ok ({ buffer := s.buffer ++ buf, written := s.written + buf.length
                 size_limit := s.size_limit }, buf.length)) := by
  refine ⟨rfl, ?_, ?_⟩
  · intro h
    simp only [SizeLimiter.write]
    rw [if_pos h]
  · intro h
    have h2 : ¬(s.written + buf.length > s.size_limit) := by omega
    simp only [SizeLimiter.write]
    rw [if_neg h2]

/-- Witness for claim C6: with a cap of 2 and 0 bytes written, a 3-byte chunk is
rejected with the InvalidData error; with a cap of 5 and 1 byte written, a 1-byte
chunk is appended and the count grows to 2; the limiter for a digest of size 7 has
cap 7. -/
theorem c6_witness :
    SizeLimiter.write { buffer := [], written := 0, size_limit := 2 } [1, 2, 3]
        = .error { kind := .invalidData
                   msg := "Downloaded file was larger than expected digest" } ∧
      SizeLimiter.write { buffer := [9], written := 1, size_limit := 5 } [2]
        = .ok ({ buffer := [9, 2], written := 2, size_limit := 5 }, 1) ∧
      (initSizeLimiter { fingerprint := 0, size := 7 }).size_limit = 7 :=
  ⟨(c6_size_limiter { fingerprint := 0, size := 7 }
        { buffer := [], written := 0, size_limit := 2 } [1, 2, 3]).2.1 (by decide),
   (c6_size_limiter { fingerprint := 0, size := 7 }
        { buffer := [9], written := 1, size_limit := 5 } [2]).2.2 (by decide),
   (c6_size_limiter { fingerprint := 0, size := 7 }
        { buffer := [], written := 0, size_limit := 0 } []).1⟩

end PantsEngine

namespace PantsOptions

/-! ### Helper lemmas for Claim C9 -/

/-- Args whose every element fails to match are skipped by the `get_string`
loop. -/
theorem getStringRev_skip (expand : String → Except String (Option String))
    (renderErr : String → String → String) (id : OptionId) (m : List Arg) :
    ∀ l : List Arg, (∀ b ∈ l, b.matches id = false) →
      getStringRev expand renderErr id (l ++ m)
        = getStringRev expand renderErr id m := by
  intro l
  induction l with
  | nil => intro _; rfl
  | cons b t ih =>
    intro h
    have hb : b.matches id = false := h b (by simp)
    simp only [List.cons_append, getStringRev, hb, Bool.false_eq_true, if_false]
    exact ih (fun b2 hb2 => h b2 (by simp [hb2]))

/-- Rightmost-wins for `get_string`: when `a` matches and nothing after it does,
`get_string` returns the contribution of `a`. -/
theorem getString_rightmost (expand : String → Except String (Option String))
    (renderErr : String → String → String) (id : OptionId)
    (pre post : List Arg) (a : Arg) (ha : a.matches id = true)
    (hpost : ∀ b ∈ post, b.matches id = false) :
    ArgsReader.get_string expand renderErr (pre ++ a :: post) id
      = stringContribution expand renderErr id a := by
  rw [ArgsReader.get_string, List.reverse_append, List.reverse_cons,
    List.append_assoc]
  rw [getStringRev_skip expand renderErr id ([a] ++ pre.reverse) post.reverse
    (fun b hb => hpost b (List.mem_reverse.mp hb))]
  rw [List.singleton_append]
  simp [getStringRev, ha]

/-- Args whose every element matches neither plainly nor negated are skipped by
the `get_bool` loop. -/
theorem getBoolRev_skip (expand : String → Except String (Option String))
    (parseBool : String → Except String Bool)
    (renderErr : String → String → String) (id : OptionId) (m : List Arg) :
    ∀ l : List Arg,
      (∀ b ∈ l, b.matches id = false ∧ b.matches_negation id = false) →
      getBoolRev expand parseBool renderErr id (l ++ m)
        = getBoolRev expand parseBool renderErr id m := by
  intro l
  induction l with
  | nil => intro _; rfl
  | cons b t ih =>
    intro h
    obtain ⟨hb1, hb2⟩ := h b (by simp)
    simp only [List.cons_append, getBoolRev, hb1, hb2, Bool.false_eq_true,
      if_false]
    exact ih (fun b2 hb => h b2 (by simp [hb]))

/-- Rightmost-wins for `get_bool`: when `a` matches (plainly or negated) and
nothing after it does, `get_bool` returns the contribution of `a`. -/
theorem getBool_rightmost (expand : String → Except String (Option String))
    (parseBool : String → Except String Bool)
    (renderErr : String → String → String) (id : OptionId)
    (pre post : List Arg) (a : Arg)
    (ha : (a.matches id || a.matches_negation id) = true)
    (hpost : ∀ b ∈ post, b.matches id = false ∧ b.matches_negation id = false) :
    ArgsReader.get_bool expand parseBool renderErr (pre ++ a :: post) id
      = boolContribution expand parseBool renderErr id a := by
  rw [ArgsReader.get_bool, List.reverse_append, List.reverse_cons,
    List.append_assoc]
  rw [getBoolRev_skip expand parseBool renderErr id ([a] ++ pre.reverse)
    post.reverse (fun b hb => hpost b (List.mem_reverse.mp hb))]
  rw [List.singleton_append]
  cases hm : a.matches id with
  | true => simp [getBoolRev, boolContribution, hm]
  | false =>
    have hn : a.matches_negation id = true := by
      rw [hm] at ha
      simpa using ha
    simp [getBoolRev, boolContribution, hm, hn]

/-- The accumulation loop of `get_list` produces the edits of all matching args in
left-to-right order (appended after the accumulator), provided every matching arg
has a value that expands to a list of edits. -/
theorem getListGo_spec {E : Type}
    (expandVal : String → Except String (Option (List E)))
    (renderErr : String → String → String) (id : OptionId) :
    ∀ (args : List Arg) (acc : List E),
      (∀ a ∈ args, a.matches id = true →
        ∃ v, a.value = some v
          ∧ ∃ es, (expandVal v).mapError (renderErr a.flag)
              = Except.ok (some es)) →
      getListGo expandVal renderErr id args acc =
        (if (acc ++ editsOf expandVal renderErr id args).isEmpty then
          Except.ok none
         else Except.ok (some (acc ++ editsOf expandVal renderErr id args))) := by
  intro args
  induction args with
  | nil =>
    intro acc h
    rw [show editsOf expandVal renderErr id ([] : List Arg) = [] from rfl,
      List.append_nil]
    rfl
  | cons a rest ih =>
    intro acc h
    have hrest : ∀ b ∈ rest, b.matches id = true →
        ∃ v, b.value = some v
          ∧ ∃ es, (expandVal v).mapError (renderErr b.flag)
              = Except.ok (some es) :=
      fun b hb => h b (List.mem_cons_of_mem a hb)
    cases hm : a.matches id with
    | false =>
      have he : editsOf expandVal renderErr id (a :: rest)
          = editsOf expandVal renderErr id rest := by
        simp [editsOf, hm]
      simp only [getListGo, hm, Bool.false_eq_true, if_false]
      rw [ih acc hrest, he]
    | true =>
      obtain ⟨v, hv, es, hes⟩ := h a (List.mem_cons_self a rest) hm
      have he : editsOf expandVal renderErr id (a :: rest)
          = es ++ editsOf expandVal renderErr id rest := by
        simp [editsOf, argEdits, hm, hv, hes]
      simp only [getListGo, hm, if_true, hv, hes]
      rw [ih (acc ++ es) hrest, he, List.append_assoc]

/-- `get_list` accumulates the edits of all matching args in argument order. -/
theorem getList_accumulates {E : Type}
    (expandVal : String → Except String (Option (List E)))
    (renderErr : String → String → String) (args : List Arg) (id : OptionId)
    (h : ∀ a ∈ args, a.matches id = true →
      ∃ v, a.value = some v
        ∧ ∃ es, (expandVal v).mapError (renderErr a.flag) = Except.ok (some es)) :
    ArgsReader.get_list expandVal renderErr args id =
      (if (editsOf expandVal renderErr id args).isEmpty then Except.ok none
       else Except.ok (some (editsOf expandVal renderErr id args))) := by
  rw [ArgsReader.get_list, getListGo_spec expandVal renderErr id args [] h,
    List.nil_append]

/-- The accumulation loop of `get_dict`, same property as the list loop. -/
theorem getDictGo_spec {D : Type}
    (expandVal : String → Except String (Option (List D)))
    (renderErr : String → String → String) (id : OptionId) :
    ∀ (args : List Arg) (acc : List D),
      (∀ a ∈ args, a.matches id = true →
        ∃ v, a.value = some v
          ∧ ∃ es, (expandVal v).mapError (renderErr a.flag)
              = Except.ok (some es)) →
      getDictGo expandVal renderErr id args acc =
        (if (acc ++ editsOf expandVal renderErr id args).isEmpty then
          Except.ok none
         else Except.ok (some (acc ++ editsOf expandVal renderErr id args))) := by
  intro args
  induction args with
  | nil =>
    intro acc h
    rw [show editsOf expandVal renderErr id ([] : List Arg) = [] from rfl,
      List.append_nil]
    rfl
  | cons a rest ih =>
    intro acc h
    have hrest : ∀ b ∈ rest, b.matches id = true →
        ∃ v, b.value = some v
          ∧ ∃ es, (expandVal v).mapError (renderErr b.flag)
              = Except.ok (some es) :=
      fun b hb => h b (List.mem_cons_of_mem a hb)
    cases hm : a.matches id with
    | false =>
      have he : editsOf expandVal renderErr id (a :: rest)
          = editsOf expandVal renderErr id rest := by
        simp [editsOf, hm]
      simp only [getDictGo, hm, Bool.false_eq_true, if_false]
      rw [ih acc hrest, he]
    | true =>
      obtain ⟨v, hv, es, hes⟩ := h a (List.mem_cons_self a rest) hm
      have he : editsOf expandVal renderErr id (a :: rest)
          = es ++ editsOf expandVal renderErr id rest := by
        simp [editsOf, argEdits, hm, hv, hes]
      simp only [getDictGo, hm, if_true, hv, hes]
      rw [ih (acc ++ es) hrest, he, List.append_assoc]

/-- `get_dict` accumulates the edits of all matching args in argument order. -/
theorem getDict_accumulates {D : Type}
    (expandVal : String → Except String (Option (List D)))
    (renderErr : String → String → String) (args : List Arg) (id : OptionId)
    (h : ∀ a ∈ args, a.matches id = true →
      ∃ v, a.value = some v
        ∧ ∃ es, (expandVal v).mapError (renderErr a.flag) = Except.ok (some es)) :
    ArgsReader.get_dict expandVal renderErr args id =
      (if (editsOf expandVal renderErr id args).isEmpty then Except.ok none
       else Except.ok (some (editsOf expandVal renderErr id args))) := by
  rw [ArgsReader.get_dict, getDictGo_spec expandVal renderErr id args [] h,
    List.nil_append]

/-! ### Claim C9 -/

/-- Claim C9: when multiple flags match an option id, `get_string` and `get_bool`
return the value contributed by the rightmost matching flag (for `get_bool`, a
flag matching the negation contributes its flipped bool), while `get_list` (the
generic loop behind its bool/int/float/string variants) and `get_dict` return the
edits of all matching flags accumulated in left-to-right argument order (provided
each matching flag carries an expandable value). -/
theorem c9_repeated_flags :
    (∀ (expand : String → Except String (Option String))
        (renderErr : String → String → String) (id : OptionId)
        (pre post : List Arg) (a : Arg), a.matches id = true →
      (∀ b ∈ post, b.matches id = false) →
      ArgsReader.get_string expand renderErr (pre ++ a :: post) id
        = stringContribution expand renderErr id a) ∧
    (∀ (expand : String → Except String (Option String))
        (parseBool : String → Except String Bool)
        (renderErr : String → String → String) (id : OptionId)
        (pre post : List Arg) (a : Arg),
      (a.matches id || a.matches_negation id) = true →
      (∀ b ∈ post, b.matches id = false ∧ b.matches_negation id = false) →
      ArgsReader.get_bool expand parseBool renderErr (pre ++ a :: post) id
        = boolContribution expand parseBool renderErr id a) ∧
    (∀ (E : Type) (expandVal : String → Except String (Option (List E)))
        (renderErr : String → String → String) (args : List Arg) (id : OptionId),
      (∀ a ∈ args, a.matches id = true →
        ∃ v, a.value = some v
          ∧ ∃ es, (expandVal v).mapError (renderErr a.flag)
              = Except.ok (some es)) →
      ArgsReader.get_list expandVal renderErr args id =
        (if (editsOf expandVal renderErr id args).isEmpty then Except.ok none
         else Except.ok (some (editsOf expandVal renderErr id args)))) ∧
    (∀ (D : Type) (expandVal : String → Except String (Option (List D)))
        (renderErr : String → String → String) (args : List Arg) (id : OptionId),
      (∀ a ∈ args, a.matches id = true →
        ∃ v, a.value = some v
          ∧ ∃ es, (expandVal v).mapError (renderErr a.flag)
              = Except.ok (some es)) →
      ArgsReader.get_dict expandVal renderErr args id =
        (if (editsOf expandVal renderErr id args).isEmpty then Except.ok none
         else Except.ok (some (editsOf expandVal renderErr id args)))) :=
  ⟨getString_rightmost, getBool_rightmost,
   fun E => getList_accumulates (E := E),
   fun D => getDict_accumulates (D := D)⟩

/-- Witness for claim C9 on concrete args: "--foo=0 --foo=1 --bar=9" gives
get_string the rightmost "--foo" value "1"; "--foo --no-foo" gives get_bool the
negated rightmost contribution `false`; get_list and get_dict accumulate the
expanded edits of both "--foo" occurrences in order. -/
theorem c9_witness :
    ArgsReader.get_string (fun v => Except.ok (some v)) (fun _ e => e)
        [exArgA, exArgB, exArgC] exId = Except.ok (some "1") ∧
      ArgsReader.get_bool (fun v => Except.ok (some v))
        (fun s => Except.ok (s == "true")) (fun _ e => e)
        [exArgT, exArgN] exId = Except.ok (some false) ∧
      ArgsReader.get_list (fun v => Except.ok (some (v.toList.map Char.toNat)))
        (fun _ e => e) [exArgA, exArgB, exArgC] exId
        = Except.ok (some [48, 49]) ∧
      ArgsReader.get_dict (fun v => Except.ok (some [v])) (fun _ e => e)
        [exArgA, exArgB, exArgC] exId = Except.ok (some ["0", "1"]) := by
  have hmatch : ∀ a ∈ [exArgA, exArgB, exArgC], a.matches exId = true →
      ∃ v, a.value = some v
        ∧ ∃ es, ((fun v => Except.ok (some (v.toList.map Char.toNat))) v
              : Except String (Option (List Nat))).mapError
            ((fun _ e => e) a.flag) = Except.ok (some es) := by
    intro a ha hm
    simp only [List.mem_cons] at ha
    rcases ha with h | h | h | h
    · subst h; exact ⟨"0", rfl, [48], rfl⟩
    · subst h; exact ⟨"1", rfl, [49], rfl⟩
    · subst h; exact absurd hm (by decide)
    · exact absurd h (List.not_mem_nil a)
  have hmatchD : ∀ a ∈ [exArgA, exArgB, exArgC], a.matches exId = true →
      ∃ v, a.value = some v
        ∧ ∃ es, ((fun v => Except.ok (some [v]))  v
              : Except String (Option (List String))).mapError
            ((fun _ e => e) a.flag) = Except.ok (some es) := by
    intro a ha hm
    simp only [List.mem_cons] at ha
    rcases ha with h | h | h | h
    · subst h; exact ⟨"0", rfl, ["0"], rfl⟩
    · subst h; exact ⟨"1", rfl, ["1"], rfl⟩
    · subst h; exact absurd hm (by decide)
    · exact absurd h (List.not_mem_nil a)
  refine ⟨?_, ?_, ?_, ?_⟩
  · exact (c9_repeated_flags.1 (fun v => Except.ok (some v)) (fun _ e => e) exId
      [exArgA] [exArgC] exArgB (by decide)
      (by intro b hb; rw [List.mem_singleton] at hb; subst hb; decide)).trans rfl
  · exact (c9_repeated_flags.2.1 (fun v => Except.ok (some v))
      (fun s => Except.ok (s == "true")) (fun _ e => e) exId
      [exArgT] [] exArgN (by decide)
      (by intro b hb; exact absurd hb (List.not_mem_nil b))).trans rfl
  · exact (c9_repeated_flags.2.2.1 Nat
      (fun v => Except.ok (some (v.toList.map Char.toNat))) (fun _ e => e)
      [exArgA, exArgB, exArgC] exId hmatch).trans rfl
  · exact (c9_repeated_flags.2.2.2 String (fun v => Except.ok (some [v]))
      (fun _ e => e) [exArgA, exArgB, exArgC] exId hmatchD).trans rfl

/-! ### Claim C10 -/

/-- Claim C10: in `Args::new`, the single-character token "-" is not parsed as a flag
(short-flag parsing requires length at least 2) and is not a valid scope name, so it
falls through to the positional branch and resets the current scope to global for
all subsequent flags. -/
theorem c10_bare_dash_resets_scope (scope : Scope) (rest : List String) :
    parseArgs scope ("-" :: rest) = parseArgs .global rest ∧
      is_valid_scope_name "-" = false := by
  constructor
  · rw [parseArgs]
    rw [if_neg (by decide), if_neg (by decide), if_neg (by decide), if_neg (by decide)]
  · decide

end PantsOptions
